import Mathlib

/-
Verification development for the entrance-shuffle subsystem
(EntranceShuffle.py of the OoT-Randomizer fork under study).

The Python module is embedded shallowly:

* the static entrance table, pool selection and error-message formatting
  are translated directly;
* the mutable world graph (entrances with name / type / addresses /
  shuffled / connected-region fields, regions with an optional address
  tag) becomes an explicit state record `GWorld`, and every in-place
  mutation of the Python code becomes a state-passing function;
* the external reachability engine (State.get_states_with_items,
  State.can_reach, State.can_beat_game) is kept opaque: each place the
  code consults it is parameterised by an oracle function, so theorems
  quantify over every possible oracle behaviour;
* Python dynamic failures (AttributeError / IndexError / KeyError paths)
  are modelled by a dedicated `crash` result, distinct from the
  EntranceShuffleError raises, which are modelled as `error` with the
  exact message string the source builds.

Entrance.connect / Entrance.disconnect and the World accessor methods
are not part of the given source file. Modelled from the spec: connect
sets the connected region of an entrance and disconnect clears it and
returns the previous one, the two composing to the identity; regions
record incoming entrances implicitly (an entrance is incoming to the
region its connected field names).
-/

/-- Address payload of a table entry: the Python dict with keys forward,
return and (optionally) blue. The key named return is called `ret` here. -/
structure Addresses where
  forward : Nat
  ret : Nat
  blue : Option Nat
deriving DecidableEq, Repr

/-- entrance_shuffle_table (lines 12-24): insertion-ordered mapping from
entrance name to (pool type, addresses). -/
def entrance_shuffle_table : List (String × String × Addresses) :=
  [ ("Outside Deku Tree -> Deku Tree Lobby",                  ("Dungeon", ⟨0x0000, 0x0209, some 0x0457⟩)),
    ("Dodongos Cavern Entryway -> Dodongos Cavern Beginning", ("Dungeon", ⟨0x0004, 0x0242, some 0x047A⟩)),
    ("Zoras Fountain -> Jabu Jabus Belly Beginning",          ("Dungeon", ⟨0x0028, 0x0221, some 0x010E⟩)),
    ("Sacred Forest Meadow -> Forest Temple Lobby",           ("Dungeon", ⟨0x0169, 0x0215, some 0x0608⟩)),
    ("Death Mountain Crater Central -> Fire Temple Lower",    ("Dungeon", ⟨0x0165, 0x024A, some 0x0564⟩)),
    ("Lake Hylia -> Water Temple Lobby",                      ("Dungeon", ⟨0x0010, 0x021D, some 0x060C⟩)),
    ("Desert Colossus -> Spirit Temple Lobby",                ("Dungeon", ⟨0x0082, 0x01E1, some 0x0610⟩)),
    ("Shadow Temple Warp Region -> Shadow Temple Entryway",   ("Dungeon", ⟨0x0037, 0x0205, some 0x0580⟩)),
    ("Kakariko Village -> Bottom of the Well",                ("Dungeon", ⟨0x0098, 0x02A6, none⟩)),
    ("Zoras Fountain -> Ice Cavern Beginning",                ("Dungeon", ⟨0x0088, 0x03D4, none⟩)),
    ("Gerudo Fortress -> Gerudo Training Grounds Lobby",      ("Dungeon", ⟨0x0008, 0x03A8, none⟩)) ]

/-- get_entrance_pool (lines 8-9): filter the static table by pool type. -/
def get_entrance_pool (ty : String) : List (String × String × Addresses) :=
  entrance_shuffle_table.filter (fun e => e.2.1 == ty)

/-- Message formatting used by the raise sites that tag a world:
the Python format string percent-d pattern `[World id]`. -/
def worldTagged (base : String) (worldId : Nat) : String :=
  base ++ " [World " ++ toString worldId ++ "]"

/-- An error message names a world id when it is built by the world-tag
format (base message followed by the bracketed world id). -/
def namesWorldId (msg : String) : Prop :=
  ∃ base worldId, msg = worldTagged base worldId

/-- Message of the raise at line 111. -/
def multiEntranceRegionError (worldId : Nat) : String :=
  worldTagged "Entrance rando of regions with multiple rando entrances not supported" worldId

/-- Message of the raise at line 248. -/
def retryExceededError (worldId : Nat) : String :=
  worldTagged "Fill attempt retry count exceeded" worldId

/-- Message of the raise at line 89. -/
def unbeatableError : String := "Cannot beat game!"

/-- Message of the raise at line 93. -/
def alrError : String := "ALR is enabled but not all locations are reachable!"

/-- State of one entrance of a world graph. `connected` is the name of
the region the entrance currently points to (none when disconnected). -/
structure GEntrance where
  name : String
  type : Option String
  addresses : Option Addresses
  shuffled : Bool
  connected : Option String
deriving DecidableEq, Repr

/-- One world: its id, the settings the shuffle reads, its entrances and
the per-region address tags (region name paired with its optional tag). -/
structure GWorld where
  id : Nat
  open_forest : Bool
  check_beatable_only : Bool
  shuffle_dungeon_entrances : Bool
  entrances : List GEntrance
  regions : List (String × Option Addresses)
deriving DecidableEq, Repr

/-- Dungeon pool selection of shuffle_entrances (lines 55-60): take the
Dungeon pool and, when worlds[0].open_forest is false, delete the
closed-forest entry before any world is shuffled. -/
def dungeonPoolSelection (w0 : GWorld) : List (String × String × Addresses) :=
  if !w0.open_forest then
    (get_entrance_pool "Dungeon").eraseP
      (fun e => e.1 == "Outside Deku Tree -> Deku Tree Lobby")
  else get_entrance_pool "Dungeon"

/-- Sample world with open forest (settings record only; used to evaluate
the pool-selection policy). -/
def sampleOpenWorld : GWorld :=
  { id := 0, open_forest := true, check_beatable_only := false,
    shuffle_dungeon_entrances := true, entrances := [], regions := [] }

/-- Sample world with closed forest. -/
def sampleClosedWorld : GWorld :=
  { id := 0, open_forest := false, check_beatable_only := false,
    shuffle_dungeon_entrances := true, entrances := [], regions := [] }

/-- Result of running a piece of the Python code: normal return, a raised
EntranceShuffleError with its message, or a dynamic failure (attribute,
index or name error). The carried value is the mutated state at that
point, since a Python exception leaves all prior mutations in place. -/
inductive RunResult (σ : Type) where
  | ok (s : σ)
  | error (s : σ) (msg : String)
  | crash (s : σ)
deriving DecidableEq, Repr

/-- The state carried by a result. -/
def RunResult.st : RunResult σ → σ
  | .ok s => s
  | .error s _ => s
  | .crash s => s

/-- The raised message, if the result is an error. -/
def RunResult.errMsg : RunResult σ → Option String
  | .error _ msg => some msg
  | _ => none

/-- Whether the result is a normal return. -/
def RunResult.isOk : RunResult σ → Bool
  | .ok _ => true
  | _ => false

/-- Whether the result is a dynamic failure. -/
def RunResult.isCrash : RunResult σ → Bool
  | .crash _ => true
  | _ => false

/-- Connection state of the entrances involved in a placement: a map from
entrance name (real entrances and synthetic Root fill entrances alike) to
the name of the region it currently points to. Modelled from the spec:
connect sets the target region of an entrance and disconnect clears it
and returns the previous one. -/
def Conn : Type := String → Option String

/-- Point update of a connection state (one connect or disconnect). -/
def connUpdate (c : Conn) (k : String) (v : Option String) : Conn :=
  fun x => if x = k then v else c x

/-- An element of the target_entrances list. The list is a Python list, so
after the buggy rollback of lines 241-244 it can hold a Region value (or
None) instead of a fill Entrance; the `region` constructor models that. -/
inductive Slot where
  | fill (name : String)
  | region (r : Option String)
deriving DecidableEq, Repr

/-- Result of the inner candidate loop of lines 195-225 for one entrance:
a candidate slot was accepted, all candidates were exhausted (each
tentative connection undone), or a dynamic failure occurred (disconnect
called on a Region value in the pool). Carries the connection state. -/
inductive TryResult where
  | accepted (conn : Conn) (used : String)
  | exhausted (conn : Conn)
  | crashed (conn : Conn)

/-- Candidate loop of lines 195-225: for each slot in order, tentatively
connect the entrance to the region freed by disconnecting the slot, ask
the acceptance oracle `ok` (the rebuilt-state check of lines 198-217),
and on rejection undo the tentative connection and try the next slot. -/
def tryTargets (ok : Conn → Bool) (e : String) (conn : Conn) : List Slot → TryResult
  | [] => .exhausted conn
  | Slot.region _ :: _ => .crashed conn
  | Slot.fill t :: rest =>
    let r := conn t
    let c1 := connUpdate (connUpdate conn t none) e r
    if ok c1 then .accepted c1 t
    else tryTargets ok e (connUpdate (connUpdate c1 e none) t r) rest

/-- Result of one full attempt (the body of lines 188-232): every entrance
placed, or some entrance exhausted its candidates (attempt failed, with
the undo-log accumulated so far), or a dynamic failure. -/
inductive AttemptResult where
  | success (conn : Conn) (pool : List Slot)
  | failure (conn : Conn) (pool : List Slot) (rollbacks : List (String × String))
  | crash (conn : Conn) (pool : List Slot)

/-- Whether an attempt failed (exhausted candidates for some entrance). -/
def AttemptResult.isFailure : AttemptResult → Bool
  | .failure _ _ _ => true
  | _ => false

/-- Entrance loop of lines 192-232 for one attempt. `shufT` gives the
random.shuffle of target_entrances performed at the top of each entrance
iteration (line 193), indexed by the iteration counter; theorems either
quantify over it or instantiate it with a concrete permutation. On
acceptance the used slot is removed from the pool and the pair (slot
name, entrance) is appended to the undo-log, mirroring lines 220-232. -/
def placeEntrances (ok : Conn → Bool) (shufT : Nat → List Slot → List Slot) :
    List String → Nat → Conn → List Slot → List (String × String) → AttemptResult
  | [], _, conn, pool, _ => .success conn pool
  | e :: es, k, conn, pool, rbs =>
    let pool1 := shufT k pool
    match tryTargets ok e conn pool1 with
    | .crashed c => .crash c pool1
    | .exhausted c =>
      if c e = none then .failure c pool1 rbs
      else .crash c pool1
    | .accepted c t =>
      if c e = none then .failure c pool1 (rbs ++ [(t, e)])
      else placeEntrances ok shufT es (k + 1) c (pool1.erase (Slot.fill t)) (rbs ++ [(t, e)])

/-- Rollback of a failed attempt, lines 241-244: for each undo-log pair,
disconnect the entrance, append the freed REGION value to
target_entrances (this is what line 243 does: it appends the region
returned by entrance.disconnect, not the fill entrance), and reconnect
the fill entrance to that region. -/
def rollbackLoop (conn : Conn) (pool : List Slot) : List (String × String) → Conn × List Slot
  | [] => (conn, pool)
  | (t, e) :: rest =>
    let r := conn e
    rollbackLoop (connUpdate (connUpdate conn e none) t r) (pool ++ [Slot.region r]) rest

/-- shuffle_entrances_restrictive, lines 178-248: the retry loop. `shufE`
is the random.shuffle of the entrance list at the top of each attempt
(line 189), indexed by the attempt number; the list order threads from
one attempt to the next because the Python shuffle is in place. Fuel is
the remaining retry budget (retry_count, default 16). When the budget is
exhausted the raise at line 248 indexes entrances[0], a dynamic failure
when the entrance list is empty. -/
def shuffle_entrances_restrictive (ok : Conn → Bool)
    (shufE : Nat → List String → List String) (shufT : Nat → Nat → List Slot → List Slot)
    (wid : Nat) : Nat → Nat → List String → Conn → List Slot → RunResult (Conn × List Slot)
  | 0, _, entrances, conn, pool =>
    if entrances.isEmpty then .crash (conn, pool)
    else .error (conn, pool) (retryExceededError wid)
  | fuel + 1, attemptIdx, entrances, conn, pool =>
    let es := shufE attemptIdx entrances
    match placeEntrances ok (shufT attemptIdx) es 0 conn pool [] with
    | .success c p => .ok (c, p)
    | .crash c p => .crash (c, p)
    | .failure c p rbs =>
      let cp := rollbackLoop c p rbs
      shuffle_entrances_restrictive ok shufE shufT wid fuel (attemptIdx + 1) es cp.1 cp.2

/-- Per-entrance body of shuffle_entrances_fast, lines 257-262: pop the
last slot, connect the entrance to the region it frees. Popping an empty
list or disconnecting a Region value is a dynamic failure. -/
def fastConnectLoop : List String → Conn → List Slot → RunResult (Conn × List Slot)
  | [], conn, pool => .ok (conn, pool)
  | e :: es, conn, pool =>
    match pool.getLast? with
    | none => .crash (conn, pool)
    | some (Slot.region _) => .crash (conn, pool)
    | some (Slot.fill t) =>
      let r := conn t
      fastConnectLoop es (connUpdate (connUpdate conn t none) e r) pool.dropLast

/-- shuffle_entrances_fast, lines 254-262: one initial random.shuffle of
the slot list (line 256, given as `shufFast`), then connect each entrance
to a popped slot unconditionally. -/
def shuffle_entrances_fast (shufFast : List Slot → List Slot) (entrances : List String)
    (conn : Conn) (pool : List Slot) : RunResult (Conn × List Slot) :=
  fastConnectLoop entrances conn (shufFast pool)

/-- Acceptance check of lines 204-217, with the external exploration
state abstracted: `beatable` is State.can_beat_game on the rebuilt
states and `canReach` is the rebuilt per-location reachability query.
The connection is acceptable when check_beatable_only holds and the game
is beatable, or when every location outside the already-unreachable
baseline is still reachable. -/
def can_connect_check (checkBeatableOnly beatable : Bool)
    (allLocations alreadyUnreachable : List String) (canReach : String → Bool) : Bool :=
  if checkBeatableOnly && beatable then true
  else allLocations.all (fun l => decide (l ∈ alreadyUnreachable) || canReach l)

/-- Concrete connection state for the rollback scenario: two fill slots
t1, t2 holding regions r1, r2; entrances e1, e2 disconnected. -/
def c1conn : Conn :=
  fun n => if n = "t1" then some "r1" else if n = "t2" then some "r2" else none

/-- Concrete free-slot pool for the rollback scenario. -/
def c1pool : List Slot := [Slot.fill "t1", Slot.fill "t2"]

/-- Concrete acceptance oracle for the rollback scenario: accepts only
states in which e1 points at r1 and e2 is unplaced, so e1 places on t1
and e2 then exhausts every remaining candidate. -/
def c1ok : Conn → Bool :=
  fun c => (c "e1" == some "r1") && (c "e2" == none)

/-- The attempt of the rollback scenario (identity shuffles). -/
def c1attempt : AttemptResult :=
  placeEntrances c1ok (fun _ l => l) ["e1", "e2"] 0 c1conn c1pool []

/-- The state after the failed attempt of the rollback scenario has been
rolled back by lines 241-244. -/
def c1rolled : Conn × List Slot :=
  match c1attempt with
  | AttemptResult.failure c p rbs => rollbackLoop c p rbs
  | AttemptResult.success c p => (c, p)
  | AttemptResult.crash c p => (c, p)

/-- world.get_entrance(name), modelled from the spec: the entrance of the
world with the given name (the first one, names being unique per world). -/
def findEntrance (w : GWorld) (n : String) : Option GEntrance :=
  w.entrances.find? (fun e => e.name == n)

/-- In-place mutation of one entrance object: rewrite the first entrance
with the given name through `f`. -/
def updateEntranceAux (n : String) (f : GEntrance → GEntrance) :
    List GEntrance → List GEntrance
  | [] => []
  | e :: es => if e.name = n then f e :: es else e :: updateEntranceAux n f es

/-- entrance.connect / entrance.disconnect on the world state: set the
connected region of the named entrance. -/
def setEntranceConn (w : GWorld) (n : String) (v : Option String) : GWorld :=
  { w with entrances := updateEntranceAux n (fun e => { e with connected := v }) w.entrances }

/-- Lines 106-107: entrance.type and entrance.addresses assignments. -/
def setEntranceTypeAddr (w : GWorld) (n : String) (ty : String) (ad : Addresses) : GWorld :=
  { w with entrances :=
      updateEntranceAux n (fun e => { e with type := some ty, addresses := some ad }) w.entrances }

/-- Line 113: entrance.shuffled assignment. -/
def setEntranceShuffled (w : GWorld) (n : String) : GWorld :=
  { w with entrances := updateEntranceAux n (fun e => { e with shuffled := true }) w.entrances }

/-- Address tag of a region of the world (none when the region name is
unknown, which the pipeline treats as a dynamic failure). -/
def regionAddr (w : GWorld) (rname : String) : Option (Option Addresses) :=
  List.lookup rname w.regions

/-- Line 112: region.addresses assignment. -/
def setRegionAddr (w : GWorld) (rname : String) (ad : Addresses) : GWorld :=
  { w with regions := w.regions.map (fun kv => if kv.1 == rname then (rname, some ad) else kv) }

/-- Python dict assignment d[k] = v: replace the value of an existing key
in place, else append the new key at the end. -/
def dictSet (d : List (String × Option String)) (k : String) (v : Option String) :
    List (String × Option String) :=
  if d.any (fun kv => kv.1 == k) then d.map (fun kv => if kv.1 == k then (k, v) else kv)
  else d ++ [(k, v)]

/-- Python dict access d[k] (the split always accesses keys it inserted,
so the KeyError path is collapsed to none here). -/
def dictGet (d : List (String × Option String)) (k : String) : Option String :=
  (List.lookup k d).getD none

/-- Classification loop of lines 157-165: entrances the oracle cannot
reach as both ages under the disconnected baseline go to the restrictive
list, the others to the soft list, preserving input order. -/
def classifyNames (canReachBoth : String → Bool) : List String → List String × List String
  | [] => ([], [])
  | n :: ns =>
    let p := classifyNames canReachBoth ns
    if !(canReachBoth n) then (n :: p.1, p.2) else (p.1, n :: p.2)

/-- Lines 145-147: disconnect every entrance in order, recording the
region it was connected to in the original_connected_regions dict. -/
def recordAndDisconnect :
    GWorld → List (String × Option String) → List String → GWorld × List (String × Option String)
  | w, d, [] => (w, d)
  | w, d, n :: ns =>
    recordAndDisconnect (setEntranceConn w n none)
      (dictSet d n ((findEntrance w n).bind (fun e => e.connected))) ns

/-- Lines 168-169: reconnect every entrance to its recorded prior target. -/
def reconnectAll : GWorld → List (String × Option String) → List String → GWorld
  | w, _, [] => w
  | w, d, n :: ns => reconnectAll (setEntranceConn w n (dictGet d n)) d ns

/-- split_entrances_by_requirements, lines 139-171. The exploration-state
construction over the disconnected graph (line 152) and the two-age
can_reach query (line 159) are abstracted into the `canReachBoth`
oracle, a function of the entrance, since the disconnected graph is
determined by the input. Returns the (restrictive, soft) name lists and
the world state after reconnection. -/
def split_entrances_by_requirements (canReachBoth : String → Bool) (w : GWorld)
    (names : List String) : (List String × List String) × GWorld :=
  let rd := recordAndDisconnect w [] names
  let classes := classifyNames canReachBoth names
  ((classes.1, classes.2), reconnectAll rd.1 rd.2 names)

/-- The world after the disconnection pass alone (proof helper). -/
def disconnectWorld : GWorld → List String → GWorld
  | w, [] => w
  | w, n :: ns => disconnectWorld (setEntranceConn w n none) ns

/-- Concrete oracle for the classifier scenario: only entrance b is
reachable as both ages. -/
def c6oracle : String → Bool := fun n => n == "b"

/-- Concrete world for the classifier scenario. -/
def c6world : GWorld :=
  { id := 0, open_forest := true, check_beatable_only := false,
    shuffle_dungeon_entrances := true,
    entrances := [ { name := "a", type := none, addresses := none,
                     shuffled := false, connected := some "Ra" },
                   { name := "b", type := none, addresses := none,
                     shuffled := false, connected := some "Rb" } ],
    regions := [("Ra", none), ("Rb", none)] }

/-- Concrete entrance names for the classifier scenario. -/
def c6names : List String := ["a", "b"]

/-- Disconnect pass of line 123: disconnect every entrance to shuffle in
order and collect the freed target regions. -/
def disconnectCollect : GWorld → List String → GWorld × List (Option String)
  | w, [] => (w, [])
  | w, n :: ns =>
    let r := (findEntrance w n).bind (fun e => e.connected)
    let p := disconnectCollect (setEntranceConn w n none) ns
    (p.1, r :: p.2)

/-- Fill-entrance creation of lines 124-129: one synthetic Root entrance
per freed target region, named after the region and connected to it. A
missing region (a disconnected entrance yielded none) is a dynamic
failure, since Python would read the name attribute of None. -/
def mkFills : List (Option String) → Option (List (String × Option String))
  | [] => some []
  | none :: _ => none
  | some rname :: rest =>
    (mkFills rest).map (fun fs => ("Root -> " ++ rname, some rname) :: fs)

/-- The placement connection map built from a world and its fill
entrances (fill names take precedence; they never collide with the
Source -> Destination names of real entrances). -/
def mkConn (w : GWorld) (fills : List (String × Option String)) : Conn :=
  fun n =>
    match List.lookup n fills with
    | some v => v
    | none =>
      match findEntrance w n with
      | some e => e.connected
      | none => none

/-- Write the final connection map back into the world state. -/
def writeBack (w : GWorld) (c : Conn) : GWorld :=
  { w with entrances := w.entrances.map (fun e => { e with connected := c e.name }) }

/-- Tagging loop of lines 103-114: set type and addresses on each pool
entrance, raise the multi-entrance-region error when the target region
already carries an address tag, else tag the region, mark the entrance
shuffled and collect it into entrances_to_shuffle. -/
def taggingLoop (w : GWorld) :
    List (String × String × Addresses) → List String → RunResult (GWorld × List String)
  | [], acc => .ok (w, acc)
  | (ename, ty, ad) :: rest, acc =>
    match findEntrance w ename with
    | none => .crash (w, acc)
    | some e =>
      let w1 := setEntranceTypeAddr w ename ty ad
      match e.connected with
      | none => .crash (w1, acc)
      | some rname =>
        match regionAddr w1 rname with
        | none => .crash (w1, acc)
        | some (some _) => .error (w1, acc) (multiEntranceRegionError w.id)
        | some none =>
          taggingLoop (setEntranceShuffled (setRegionAddr w1 rname ad) ename) rest
            (acc ++ [ename])

/-- One iteration of the world loop of shuffle_entrance_pool (lines
100-132): tag the pool entrances, split them by requirements, disconnect
them and create the fill slots, then run the restrictive and the fast
placer. The exploration-state queries are abstracted by the oracles. -/
def worldStep (canReachBoth : String → Bool) (ok : Conn → Bool)
    (shufE : Nat → List String → List String) (shufT : Nat → Nat → List Slot → List Slot)
    (shufFast : List Slot → List Slot)
    (pool : List (String × String × Addresses)) (w : GWorld) : RunResult GWorld :=
  match taggingLoop w pool [] with
  | .error s m => .error s.1 m
  | .crash s => .crash s.1
  | .ok s =>
    let sp := split_entrances_by_requirements canReachBoth s.1 s.2
    let dc := disconnectCollect sp.2 s.2
    match mkFills dc.2 with
    | none => .crash dc.1
    | some fills =>
      match shuffle_entrances_restrictive ok shufE shufT w.id 16 0 sp.1.1
          (mkConn dc.1 fills) (fills.map (fun f => Slot.fill f.1)) with
      | .error cp m => .error (writeBack dc.1 cp.1) m
      | .crash cp => .crash (writeBack dc.1 cp.1)
      | .ok cp =>
        match shuffle_entrances_fast shufFast sp.1.2 cp.1 cp.2 with
        | .error cp2 m => .error (writeBack dc.1 cp2.1) m
        | .crash cp2 => .crash (writeBack dc.1 cp2.1)
        | .ok cp2 => .ok (writeBack dc.1 cp2.1)

/-- The per-world loop of shuffle_entrance_pool (line 100), processing
worlds in order; an exception aborts the loop, leaving the worlds after
the failing one untouched. -/
def poolLoop (step : Nat → GWorld → RunResult GWorld) (k : Nat) :
    List GWorld → RunResult (List GWorld)
  | [] => .ok []
  | w :: ws =>
    match step k w with
    | .error s m => .error (s :: ws) m
    | .crash s => .crash (s :: ws)
    | .ok s =>
      match poolLoop step (k + 1) ws with
      | .ok rest => .ok (s :: rest)
      | .error rest m => .error (s :: rest) m
      | .crash rest => .crash (s :: rest)

/-- shuffle_entrance_pool, lines 97-132. Oracles and shuffle draws are
indexed by the position of the world in the list, abstracting the
evolving multi-world exploration state each world step consults. -/
def shuffle_entrance_pool (canReachBothW : Nat → String → Bool) (okW : Nat → Conn → Bool)
    (shufEW : Nat → Nat → List String → List String)
    (shufTW : Nat → Nat → Nat → List Slot → List Slot)
    (shufFastW : Nat → List Slot → List Slot)
    (pool : List (String × String × Addresses)) (worlds : List GWorld) :
    RunResult (List GWorld) :=
  poolLoop (fun k w =>
    worldStep (canReachBothW k) (okW k) (shufEW k) (shufTW k) (shufFastW k) pool w) 0 worlds

/-- Region-target consistency check of lines 65-74 for one world: for
each region targeted by a shuffled entrance (with multiplicity), a
diagnostic triple (region, count of incoming shuffled entrances, world
id) is emitted when the count is not exactly one, mirroring the logging
call arguments. Returns none when a shuffled entrance is disconnected,
in which case Python dereferences None (dynamic failure). -/
def regionTargetCheck (w : GWorld) : Option (List (Option String × Nat × Nat)) :=
  let shuffledEs := w.entrances.filter (fun e => e.shuffled)
  let targets := shuffledEs.map (fun e => e.connected)
  if targets.any (fun r => r.isNone) then none
  else some (targets.filterMap (fun r =>
    let cnt := (shuffledEs.filter (fun e => e.connected == r)).length
    if cnt != 1 then some (r, cnt, w.id) else none))

/-- The consistency check over all worlds, collecting the diagnostics. -/
def regionChecksAll : List GWorld → Option (List (Option String × Nat × Nat))
  | [] => some []
  | w :: ws =>
    match regionTargetCheck w, regionChecksAll ws with
    | some d, some ds => some (d ++ ds)
    | _, _ => none

/-- Verification of lines 76-93: compute the ALR-compliance flag by
scanning every location unless check_beatable_only is set, then raise
the unbeatable error if the game cannot be beaten, else the ALR error if
the flag was cleared; else return normally. -/
def verifyPhase (checkBeatableOnly : Bool) (allLocations alreadyUnreachable : List String)
    (canReach : String → Bool) (beatable : Bool) : Option String :=
  let alr_compliant :=
    if !checkBeatableOnly then
      allLocations.all (fun l => decide (l ∈ alreadyUnreachable) || canReach l)
    else true
  if !beatable then some unbeatableError
  else if !alr_compliant then some alrError
  else none

/-- Lines 63-93 after all pools are shuffled: run the non-fatal
region-target check, then the beatability and ALR verification over the
rebuilt exploration state (abstracted as the canReach and beatable
oracles). -/
def postShufflePhase (allLocations alreadyUnreachable : List String)
    (canReach : String → Bool) (beatable : Bool) (worlds : List GWorld) :
    RunResult (List GWorld) × List (Option String × Nat × Nat) :=
  match worlds with
  | [] => (.crash [], [])
  | w0 :: rest =>
    match regionChecksAll (w0 :: rest) with
    | none => (.crash (w0 :: rest), [])
    | some diags =>
      match verifyPhase w0.check_beatable_only allLocations alreadyUnreachable
          canReach beatable with
      | some m => (.error (w0 :: rest) m, diags)
      | none => (.ok (w0 :: rest), diags)

/-- shuffle_entrances, lines 43-93: snapshot the baseline-unreachable
locations, select and filter the dungeon pool from worlds[0], shuffle it
for every world, then run the post-shuffle checks. `canReachBaseline`
abstracts the pre-shuffle exploration state; `canReachAfter` and
`beatable` abstract the rebuilt post-shuffle state, as functions of the
final world list. -/
def shuffle_entrances_model (canReachBothW : Nat → String → Bool) (okW : Nat → Conn → Bool)
    (shufEW : Nat → Nat → List String → List String)
    (shufTW : Nat → Nat → Nat → List Slot → List Slot)
    (shufFastW : Nat → List Slot → List Slot)
    (allLocations : List String) (canReachBaseline : String → Bool)
    (canReachAfter : List GWorld → String → Bool) (beatable : List GWorld → Bool)
    (worlds : List GWorld) :
    RunResult (List GWorld) × List (Option String × Nat × Nat) :=
  let alreadyUnreachable := allLocations.filter (fun l => !canReachBaseline l)
  match worlds with
  | [] => (.crash [], [])
  | w0 :: rest =>
    if w0.shuffle_dungeon_entrances then
      match shuffle_entrance_pool canReachBothW okW shufEW shufTW shufFastW
          (dungeonPoolSelection w0) (w0 :: rest) with
      | .error ws m => (.error ws m, [])
      | .crash ws => (.crash ws, [])
      | .ok ws =>
        postShufflePhase allLocations alreadyUnreachable (canReachAfter ws) (beatable ws) ws
    else
      postShufflePhase allLocations alreadyUnreachable (canReachAfter (w0 :: rest))
        (beatable (w0 :: rest)) (w0 :: rest)

/-- Concrete address payload for the pre-tagged-region scenario. -/
def c3addr : Addresses := { forward := 1, ret := 2, blue := none }

/-- Concrete one-entry pool for the pre-tagged-region scenario. -/
def c3pool : List (String × String × Addresses) := [("A -> B", "Dungeon", c3addr)]

/-- First world of the pre-tagged-region scenario: clean, shuffled fine. -/
def c3w0 : GWorld :=
  { id := 0, open_forest := true, check_beatable_only := false,
    shuffle_dungeon_entrances := true,
    entrances := [ { name := "A -> B", type := none, addresses := none,
                     shuffled := false, connected := some "B" } ],
    regions := [("B", none)] }

/-- Second world of the pre-tagged-region scenario: its target region B
already carries an address tag before shuffling begins. -/
def c3w1 : GWorld :=
  { id := 1, open_forest := true, check_beatable_only := false,
    shuffle_dungeon_entrances := true,
    entrances := [ { name := "A -> B", type := none, addresses := none,
                     shuffled := false, connected := some "B" } ],
    regions := [("B", some { forward := 7, ret := 8, blue := none })] }

/-- The run of shuffle_entrance_pool on the pre-tagged-region scenario
(identity shuffle draws, all-soft classification oracle). -/
def c3run : RunResult (List GWorld) :=
  shuffle_entrance_pool (fun _ _ => true) (fun _ _ => true) (fun _ _ l => l)
    (fun _ _ _ l => l) (fun _ l => l) c3pool [c3w0, c3w1]

/-- Entrances of the mixed-forest-setting scenario: one per dungeon pool
entry, each connected to its own region. -/
def c4entrances : List GEntrance :=
  ((List.range 11).zip (get_entrance_pool "Dungeon")).map (fun p =>
    { name := p.2.1, type := none, addresses := none, shuffled := false,
      connected := some ("B" ++ toString p.1) })

/-- Regions of the mixed-forest-setting scenario. -/
def c4regions : List (String × Option Addresses) :=
  (List.range 11).map (fun i => ("B" ++ toString i, none))

/-- First world of the mixed-forest-setting scenario: open forest. -/
def c4w0 : GWorld :=
  { id := 0, open_forest := true, check_beatable_only := false,
    shuffle_dungeon_entrances := true, entrances := c4entrances, regions := c4regions }

/-- Second world of the mixed-forest-setting scenario: closed forest. -/
def c4w1 : GWorld :=
  { id := 1, open_forest := false, check_beatable_only := false,
    shuffle_dungeon_entrances := true, entrances := c4entrances, regions := c4regions }

/-- The full orchestrator run on the mixed-forest-setting scenario. -/
def c4run : RunResult (List GWorld) × List (Option String × Nat × Nat) :=
  shuffle_entrances_model (fun _ _ => true) (fun _ _ => true) (fun _ _ l => l)
    (fun _ _ _ l => l) (fun _ l => l) [] (fun _ => true) (fun _ _ => true)
    (fun _ => true) [c4w0, c4w1]

/-- The shuffled flag of a named entrance of a world. -/
def entranceShuffledFlag (w : GWorld) (n : String) : Option Bool :=
  (findEntrance w n).map (fun e => e.shuffled)

/-- World with two shuffled entrances targeting the same region: the
post-shuffle consistency check reports a violation for it. -/
def c9world : GWorld :=
  { id := 0, open_forest := true, check_beatable_only := false,
    shuffle_dungeon_entrances := true,
    entrances := [ { name := "x", type := none, addresses := none,
                     shuffled := true, connected := some "R" },
                   { name := "y", type := none, addresses := none,
                     shuffled := true, connected := some "R" } ],
    regions := [("R", none)] }

/-- String append acts as list append on the underlying character data. -/
theorem string_data_append (s t : String) : (s ++ t).data = s.data ++ t.data := rfl

/-- Every world-tagged message ends with the closing bracket character. -/
theorem worldTagged_data_getLast (base : String) (worldId : Nat) :
    (worldTagged base worldId).data.getLast? = some ']' := by
  show (base ++ " [World " ++ toString worldId ++ "]").data.getLast? = some ']'
  have h : (base ++ " [World " ++ toString worldId ++ "]").data
      = (base.data ++ " [World ".data ++ (toString worldId).data) ++ [']'] := by
    simp [string_data_append]
  rw [h, List.getLast?_concat]

/-- C8: the Dungeon pool of the static catalog has exactly 11 named
connections; after the closed-forest filter the pool used for shuffling
has exactly 10 entries and excludes the Outside Deku Tree entry, while
with open forest it keeps all 11 including that entry. -/
theorem C8_dungeon_pool_counts :
    (get_entrance_pool "Dungeon").length = 11 ∧
    ((get_entrance_pool "Dungeon").map (fun e => e.1)).Nodup ∧
    (dungeonPoolSelection sampleClosedWorld).length = 10 ∧
    "Outside Deku Tree -> Deku Tree Lobby" ∉
      (dungeonPoolSelection sampleClosedWorld).map (fun e => e.1) ∧
    (dungeonPoolSelection sampleOpenWorld).length = 11 ∧
    "Outside Deku Tree -> Deku Tree Lobby" ∈
      (dungeonPoolSelection sampleOpenWorld).map (fun e => e.1) := by
  decide

/-- Helper: a message whose last character is an exclamation mark cannot
be a world-tagged message. -/
theorem not_namesWorldId_of_bang (s : String) (h : s.data.getLast? = some '!') :
    ¬ namesWorldId s := by
  rintro ⟨base, worldId, hEq⟩
  have h2 : s.data.getLast? = (worldTagged base worldId).data.getLast? := by rw [hEq]
  rw [h, worldTagged_data_getLast] at h2
  exact absurd (Option.some.inj h2) (by decide)

/-- C2 counterexample: the claim is false — the error raised when the
game is unbeatable (line 89) and the error raised when the ALR contract
is violated (line 93) are fixed strings that name no world id at all. -/
theorem C2_counterexample :
    ¬ namesWorldId unbeatableError ∧ ¬ namesWorldId alrError :=
  ⟨not_namesWorldId_of_bang _ (by decide), not_namesWorldId_of_bang _ (by decide)⟩

/-- C2 amended: the retries-exhausted error (line 248) and the
multi-entrance-region error (line 111) each name the offending world id,
while the unbeatable error (line 89) and the ALR-violation error
(line 93) are raised without any world id. -/
theorem C2_amended_error_world_ids :
    (∀ worldId, namesWorldId (multiEntranceRegionError worldId)) ∧
    (∀ worldId, namesWorldId (retryExceededError worldId)) ∧
    ¬ namesWorldId unbeatableError ∧ ¬ namesWorldId alrError :=
  ⟨fun worldId => ⟨_, worldId, rfl⟩, fun worldId => ⟨_, worldId, rfl⟩,
    not_namesWorldId_of_bang _ (by decide), not_namesWorldId_of_bang _ (by decide)⟩

/-- Undoing a tentative connection (lines 224-225) restores the exact
connection state when the entrance was disconnected beforehand. -/
theorem connUpdate_undo (conn : Conn) (e t : String) (h : conn e = none) :
    connUpdate (connUpdate (connUpdate (connUpdate conn t none) e (conn t)) e none) t (conn t)
      = conn := by
  funext x
  unfold connUpdate
  by_cases hxt : x = t
  · simp [hxt]
  · by_cases hxe : x = e
    · subst hxe
      simp [hxt, h]
    · simp [hxt, hxe]

/-- C1: evaluation of the failed-attempt rollback at a concrete input.
The attempt fails (e2 exhausts all candidates), the rollback of lines
241-244 restores every entrance connection (e1, e2 disconnected again;
fill slots t1, t2 reconnected to r1, r2), but the free-slot pool is NOT
restored: the fill entrance t1 is gone from it and a Region value took
its place, so the next attempt crashes disconnecting that Region. -/
theorem C1_code_bug_eval :
    c1attempt.isFailure = true ∧
    c1rolled.1 "e1" = none ∧ c1rolled.1 "e2" = none ∧
    c1rolled.1 "t1" = some "r1" ∧ c1rolled.1 "t2" = some "r2" ∧
    Slot.fill "t1" ∈ c1pool ∧ Slot.fill "t1" ∉ c1rolled.2 ∧
    Slot.region (some "r1") ∈ c1rolled.2 ∧
    (shuffle_entrances_restrictive c1ok (fun _ l => l) (fun _ _ l => l) 0 2 0
      ["e1", "e2"] c1conn c1pool).isCrash = true := by
  decide

/-- C10: calling the restrictive placer with an empty entrance list
returns normally on the first attempt, raising nothing and leaving the
connection state and the free-slot pool untouched, for every acceptance
oracle, every shuffle behaviour and every positive retry budget. -/
theorem C10_empty_entrances_noop (ok : Conn → Bool)
    (shufE : Nat → List String → List String) (shufT : Nat → Nat → List Slot → List Slot)
    (wid : Nat) (conn : Conn) (pool : List Slot) (fuel : Nat)
    (hE : ∀ i, shufE i [] = []) (hfuel : 0 < fuel) :
    shuffle_entrances_restrictive ok shufE shufT wid fuel 0 [] conn pool
      = RunResult.ok (conn, pool) := by
  cases fuel with
  | zero => exact absurd hfuel (by simp)
  | succ n =>
    show (match placeEntrances ok (shufT 0) (shufE 0 []) 0 conn pool [] with
      | .success c p => RunResult.ok (c, p)
      | .crash c p => RunResult.crash (c, p)
      | .failure c p rbs =>
        let cp := rollbackLoop c p rbs
        shuffle_entrances_restrictive ok shufE shufT wid n 1 (shufE 0 []) cp.1 cp.2)
      = RunResult.ok (conn, pool)
    rw [hE 0]
    rfl

/-- C10 witness: concrete instantiation of the empty-entrance run. -/
theorem C10_witness :
    shuffle_entrances_restrictive (fun _ => true) (fun _ l => l) (fun _ _ l => l) 0 16 0 []
      (fun _ => none) [Slot.fill "t"] = RunResult.ok ((fun _ => none), [Slot.fill "t"]) :=
  C10_empty_entrances_noop _ _ _ _ _ _ _ (fun _ => rfl) (by decide)

/-- C5: the acceptance rule of lines 204-217. A tentative connection is
acceptable exactly when check_beatable_only is set and the game is
beatable under the rebuilt states, or every location outside the
baseline-unreachable set is still reachable; an accepted candidate ends
the candidate loop with the tentative state, and a rejected candidate is
undone exactly and the next candidate slot is tried. -/
theorem C5_acceptance_rule (checkBeatableOnly beatable : Bool)
    (allLocations alreadyUnreachable : List String) (canReach : String → Bool)
    (ok : Conn → Bool) (e t : String) (conn : Conn) (rest : List Slot) :
    (can_connect_check checkBeatableOnly beatable allLocations alreadyUnreachable canReach = true ↔
      ((checkBeatableOnly = true ∧ beatable = true) ∨
        ∀ l ∈ allLocations, l ∉ alreadyUnreachable → canReach l = true)) ∧
    (ok (connUpdate (connUpdate conn t none) e (conn t)) = true →
      tryTargets ok e conn (Slot.fill t :: rest)
        = TryResult.accepted (connUpdate (connUpdate conn t none) e (conn t)) t) ∧
    (conn e = none →
      ok (connUpdate (connUpdate conn t none) e (conn t)) = false →
      tryTargets ok e conn (Slot.fill t :: rest) = tryTargets ok e conn rest) := by
  refine ⟨?_, ?_, ?_⟩
  · cases hc : checkBeatableOnly <;> cases hb : beatable <;>
      simp [can_connect_check, List.all_eq_true, or_iff_not_imp_left]
  · intro h
    simp [tryTargets, h]
  · intro h1 h2
    simp only [tryTargets, h2]
    rw [connUpdate_undo conn e t h1]
    simp

/-- C5 witness: concrete rejection skips to the next candidate, and the
acceptance rule evaluated at a concrete input. -/
theorem C5_witness :
    (can_connect_check false true ["L1"] [] (fun _ => false) = true ↔
      ((false = true ∧ true = true) ∨
        ∀ l ∈ ["L1"], l ∉ ([] : List String) → (fun _ => false) l = true)) ∧
    tryTargets (fun _ => false) "e" (fun _ => none) [Slot.fill "t", Slot.fill "u"]
      = tryTargets (fun _ => false) "e" (fun _ => none) [Slot.fill "u"] :=
  ⟨(C5_acceptance_rule false true ["L1"] [] (fun _ => false) (fun _ => false) "e" "t"
      (fun _ => none) []).1,
   (C5_acceptance_rule false true ["L1"] [] (fun _ => false) (fun _ => false) "e" "t"
      (fun _ => none) [Slot.fill "u"]).2.2 rfl rfl⟩

/-- classifyNames computes the order-preserving pair of filters. -/
theorem classifyNames_eq_filters (p : String → Bool) (l : List String) :
    classifyNames p l = (l.filter (fun n => !(p n)), l.filter p) := by
  induction l with
  | nil => rfl
  | cons n ns ih => cases h : p n <;> simp [classifyNames, ih, h]

/-- Updating an entrance other than the sought one leaves find? alone. -/
theorem updateEntranceAux_find?_ne (f : GEntrance → GEntrance)
    (hf : ∀ e, (f e).name = e.name) {m n : String} (hnm : n ≠ m) :
    ∀ es : List GEntrance,
      (updateEntranceAux m f es).find? (fun e => e.name == n)
        = es.find? (fun e => e.name == n)
  | [] => rfl
  | e :: es => by
    simp only [updateEntranceAux]
    by_cases h : e.name = m
    · have hb1 : ((f e).name == n) = false := by
        rw [hf e, h]; exact beq_eq_false_iff_ne.mpr (Ne.symm hnm)
      have hb2 : (e.name == n) = false := by
        rw [h]; exact beq_eq_false_iff_ne.mpr (Ne.symm hnm)
      rw [if_pos h]
      simp only [List.find?_cons, hb1, hb2]
    · rw [if_neg h]
      by_cases h3 : e.name = n
      · have hb : (e.name == n) = true := by rw [h3]; exact beq_self_eq_true n
        simp only [List.find?_cons, hb]
      · have hb : (e.name == n) = false := beq_eq_false_iff_ne.mpr h3
        simp only [List.find?_cons, hb]
        exact updateEntranceAux_find?_ne f hf hnm es

/-- find? after updating the sought entrance maps the update over it. -/
theorem updateEntranceAux_find?_eq (f : GEntrance → GEntrance)
    (hf : ∀ e, (f e).name = e.name) (n : String) :
    ∀ es : List GEntrance,
      (updateEntranceAux n f es).find? (fun e => e.name == n)
        = (es.find? (fun e => e.name == n)).map f
  | [] => rfl
  | e :: es => by
    simp only [updateEntranceAux]
    by_cases h : e.name = n
    · have hb1 : ((f e).name == n) = true := by rw [hf e, h]; exact beq_self_eq_true n
      have hb2 : (e.name == n) = true := by rw [h]; exact beq_self_eq_true n
      rw [if_pos h]
      simp only [List.find?_cons, hb1, hb2]
      rfl
    · have hb : (e.name == n) = false := beq_eq_false_iff_ne.mpr h
      rw [if_neg h]
      simp only [List.find?_cons, hb]
      exact updateEntranceAux_find?_eq f hf n es

/-- Updating an absent entrance is a no-op. -/
theorem updateEntranceAux_missing (f : GEntrance → GEntrance) (n : String) :
    ∀ es : List GEntrance, es.find? (fun e => e.name == n) = none →
      updateEntranceAux n f es = es
  | [], _ => rfl
  | e :: es, h => by
    by_cases h1 : e.name = n
    · have hb : (e.name == n) = true := by rw [h1]; exact beq_self_eq_true n
      simp only [List.find?_cons, hb] at h
      exact absurd h (by simp)
    · have hb : (e.name == n) = false := beq_eq_false_iff_ne.mpr h1
      simp only [List.find?_cons, hb] at h
      simp only [updateEntranceAux]
      rw [if_neg h1, updateEntranceAux_missing f n es h]

/-- Two updates of the same entrance compose. -/
theorem updateEntranceAux_comp (f g : GEntrance → GEntrance)
    (hg : ∀ e, (g e).name = e.name) (n : String) :
    ∀ es : List GEntrance,
      updateEntranceAux n f (updateEntranceAux n g es)
        = updateEntranceAux n (fun e => f (g e)) es
  | [] => rfl
  | e :: es => by
    simp only [updateEntranceAux]
    by_cases h : e.name = n
    · rw [if_pos h, if_pos h]
      simp only [updateEntranceAux]
      rw [if_pos (show (g e).name = n by rw [hg e]; exact h)]
    · rw [if_neg h, if_neg h]
      simp only [updateEntranceAux]
      rw [if_neg h, updateEntranceAux_comp f g hg n es]

/-- Updates of distinct entrances commute. -/
theorem updateEntranceAux_comm (f g : GEntrance → GEntrance)
    (hf : ∀ e, (f e).name = e.name) (hg : ∀ e, (g e).name = e.name)
    {n m : String} (hnm : n ≠ m) :
    ∀ es : List GEntrance,
      updateEntranceAux n f (updateEntranceAux m g es)
        = updateEntranceAux m g (updateEntranceAux n f es)
  | [] => rfl
  | e :: es => by
    simp only [updateEntranceAux]
    by_cases h1 : e.name = m
    · have h2 : ¬ e.name = n := fun hc => hnm (hc.symm.trans h1)
      rw [if_pos h1, if_neg h2]
      simp only [updateEntranceAux]
      rw [if_neg (show ¬ (g e).name = n by rw [hg e]; exact h2), if_pos h1]
    · by_cases h2 : e.name = n
      · rw [if_neg h1, if_pos h2]
        simp only [updateEntranceAux]
        rw [if_pos h2, if_neg (show ¬ (f e).name = m by rw [hf e]; exact h1)]
      · rw [if_neg h1, if_neg h2]
        simp only [updateEntranceAux]
        rw [if_neg h2, if_neg h1, updateEntranceAux_comm f g hf hg hnm es]

/-- Setting the connection of an entrance back to the value it had before
it was disconnected restores the entrance list exactly. -/
theorem updateEntranceAux_conn_restore (n : String) (v : Option String) :
    ∀ (es : List GEntrance) (e0 : GEntrance),
      es.find? (fun e2 => e2.name == n) = some e0 → e0.connected = v →
      updateEntranceAux n (fun e => { e with connected := v })
        (updateEntranceAux n (fun e => { e with connected := none }) es) = es
  | [], e0, h, _ => by simp at h
  | e :: es, e0, h, hv => by
    simp only [updateEntranceAux]
    by_cases h1 : e.name = n
    · have hb : (e.name == n) = true := by rw [h1]; exact beq_self_eq_true n
      simp only [List.find?_cons, hb] at h
      have he : e0 = e := by injection h with h3; exact h3.symm
      subst he
      subst hv
      rw [if_pos h1]
      simp only [updateEntranceAux]
      rw [if_pos h1]
    · have hb : (e.name == n) = false := beq_eq_false_iff_ne.mpr h1
      simp only [List.find?_cons, hb] at h
      rw [if_neg h1]
      simp only [updateEntranceAux]
      rw [if_neg h1, updateEntranceAux_conn_restore n v es e0 h hv]

/-- findEntrance ignores connection updates of a different entrance. -/
theorem findEntrance_setConn_ne (w : GWorld) {n m : String} (hnm : n ≠ m) (v : Option String) :
    findEntrance (setEntranceConn w m v) n = findEntrance w n :=
  updateEntranceAux_find?_ne (fun e => { e with connected := v }) (fun _ => rfl) hnm w.entrances

/-- findEntrance after a connection update of the same entrance. -/
theorem findEntrance_setConn_eq (w : GWorld) (n : String) (v : Option String) :
    findEntrance (setEntranceConn w n v) n
      = (findEntrance w n).map (fun e => { e with connected := v }) :=
  updateEntranceAux_find?_eq (fun e => { e with connected := v }) (fun _ => rfl) n w.entrances

/-- Connection updates of distinct entrances commute. -/
theorem setEntranceConn_comm (w : GWorld) {n m : String} (hnm : n ≠ m)
    (v u : Option String) :
    setEntranceConn (setEntranceConn w m u) n v
      = setEntranceConn (setEntranceConn w n v) m u := by
  unfold setEntranceConn
  simp [updateEntranceAux_comm (fun e => { e with connected := v })
    (fun e => { e with connected := u }) (fun _ => rfl) (fun _ => rfl) hnm w.entrances]

/-- Reconnecting an entrance to the region it held before disconnection
restores the world exactly. -/
theorem setEntranceConn_restore (w : GWorld) (n : String) :
    setEntranceConn (setEntranceConn w n none) n
      ((findEntrance w n).bind (fun e => e.connected)) = w := by
  cases h : findEntrance w n with
  | none =>
    show { w with entrances := (updateEntranceAux n (fun e => { e with connected := none })
      (updateEntranceAux n (fun e => { e with connected := none }) w.entrances)) } = w
    rw [updateEntranceAux_missing (fun e => { e with connected := none }) n w.entrances h,
      updateEntranceAux_missing (fun e => { e with connected := none }) n w.entrances h]
  | some e0 =>
    show { w with entrances := (updateEntranceAux n (fun e => { e with connected := e0.connected })
      (updateEntranceAux n (fun e => { e with connected := none }) w.entrances)) } = w
    rw [updateEntranceAux_conn_restore n e0.connected w.entrances e0 h rfl]

/-- The world component of the record-and-disconnect pass. -/
theorem recordAndDisconnect_fst : ∀ (names : List String) (w : GWorld)
    (d : List (String × Option String)),
    (recordAndDisconnect w d names).1 = disconnectWorld w names
  | [], _, _ => rfl
  | _ :: ns, _, _ => recordAndDisconnect_fst ns _ _

/-- Disconnecting a list of entrances commutes with a connection update
of an entrance outside the list. -/
theorem disconnectWorld_setConn_comm : ∀ (ns : List String) (w : GWorld)
    (n : String) (v : Option String), n ∉ ns →
    disconnectWorld (setEntranceConn w n v) ns
      = setEntranceConn (disconnectWorld w ns) n v
  | [], _, _, _, _ => rfl
  | m :: ns, w, n, v, h => by
    have hnm : n ≠ m := fun hc => h (hc ▸ List.mem_cons_self m ns)
    have hns : n ∉ ns := fun hc => h (List.mem_cons_of_mem m hc)
    show disconnectWorld (setEntranceConn (setEntranceConn w n v) m none) ns
      = setEntranceConn (disconnectWorld (setEntranceConn w m none) ns) n v
    rw [setEntranceConn_comm w hnm.symm none v]
    exact disconnectWorld_setConn_comm ns (setEntranceConn w m none) n v hns

/-- findEntrance of an entrance outside the disconnected list. -/
theorem findEntrance_disconnectWorld : ∀ (ns : List String) (w : GWorld)
    (n : String), n ∉ ns →
    findEntrance (disconnectWorld w ns) n = findEntrance w n
  | [], _, _, _ => rfl
  | m :: ns, w, n, h => by
    have hnm : n ≠ m := fun hc => h (hc ▸ List.mem_cons_self m ns)
    have hns : n ∉ ns := fun hc => h (List.mem_cons_of_mem m hc)
    show findEntrance (disconnectWorld (setEntranceConn w m none) ns) n = findEntrance w n
    rw [findEntrance_disconnectWorld ns _ n hns, findEntrance_setConn_ne w hnm none]

/-- Lookup of a different key is unchanged by an in-place dict replace. -/
theorem lookup_mapReplace_ne {k m : String} (hkm : k ≠ m) (v : Option String) :
    ∀ d : List (String × Option String),
      List.lookup k (d.map (fun kv => if kv.1 == m then (m, v) else kv)) = List.lookup k d
  | [] => rfl
  | (k1, v1) :: d => by
    simp only [List.map_cons]
    by_cases h : k1 = m
    · have hb1 : (k == m) = false := beq_eq_false_iff_ne.mpr hkm
      have hb2 : (k == k1) = false := by rw [h]; exact hb1
      rw [if_pos (show ((k1, v1).1 == m) = true by simp [h])]
      simp only [List.lookup, hb1, hb2]
      exact lookup_mapReplace_ne hkm v d
    · rw [if_neg (show ¬((k1, v1).1 == m) = true by simp [h])]
      by_cases h2 : k = k1
      · have hb : (k == k1) = true := by rw [h2]; exact beq_self_eq_true k1
        simp only [List.lookup, hb]
      · have hb : (k == k1) = false := beq_eq_false_iff_ne.mpr h2
        simp only [List.lookup, hb]
        exact lookup_mapReplace_ne hkm v d

/-- Lookup of a different key skips an appended binding. -/
theorem lookup_append_pair {k m : String} (hkm : k ≠ m) (v : Option String) :
    ∀ d : List (String × Option String),
      List.lookup k (d ++ [(m, v)]) = List.lookup k d
  | [] => by
    have hb : (k == m) = false := beq_eq_false_iff_ne.mpr hkm
    simp only [List.nil_append, List.lookup, hb]
  | (k1, v1) :: d => by
    simp only [List.cons_append]
    by_cases h2 : k = k1
    · have hb : (k == k1) = true := by rw [h2]; exact beq_self_eq_true k1
      simp only [List.lookup, hb]
    · have hb : (k == k1) = false := beq_eq_false_iff_ne.mpr h2
      simp only [List.lookup, hb]
      exact lookup_append_pair hkm v d

/-- A key absent from the dict fails the membership scan. -/
theorem lookup_none_any_false {k : String} :
    ∀ d : List (String × Option String), List.lookup k d = none →
      d.any (fun kv => kv.1 == k) = false
  | [], _ => rfl
  | (k1, v1) :: d, h => by
    by_cases h2 : k = k1
    · have hb : (k == k1) = true := by rw [h2]; exact beq_self_eq_true k1
      simp only [List.lookup, hb] at h
      exact absurd h (by simp)
    · have hb : (k == k1) = false := beq_eq_false_iff_ne.mpr h2
      simp only [List.lookup, hb] at h
      have hb2 : ((k1, v1).1 == k) = false := beq_eq_false_iff_ne.mpr (Ne.symm h2)
      simp only [List.any_cons, hb2, Bool.false_or]
      exact lookup_none_any_false d h

/-- Appending a fresh binding makes it the lookup result. -/
theorem lookup_append_self {k : String} (v : Option String) :
    ∀ d : List (String × Option String), List.lookup k d = none →
      List.lookup k (d ++ [(k, v)]) = some v
  | [], _ => by
    simp only [List.nil_append, List.lookup, beq_self_eq_true]
  | (k1, v1) :: d, h => by
    simp only [List.cons_append]
    by_cases h2 : k = k1
    · have hb : (k == k1) = true := by rw [h2]; exact beq_self_eq_true k1
      simp only [List.lookup, hb] at h
      exact absurd h (by simp)
    · have hb : (k == k1) = false := beq_eq_false_iff_ne.mpr h2
      simp only [List.lookup, hb] at h ⊢
      exact lookup_append_self v d h

/-- Dict assignment of a different key does not change a lookup. -/
theorem lookup_dictSet_ne {k m : String} (hkm : k ≠ m) (v : Option String)
    (d : List (String × Option String)) :
    List.lookup k (dictSet d m v) = List.lookup k d := by
  unfold dictSet
  by_cases h : d.any (fun kv => kv.1 == m) = true
  · rw [if_pos h]; exact lookup_mapReplace_ne hkm v d
  · rw [if_neg h]; exact lookup_append_pair hkm v d

/-- Dict assignment of a fresh key stores its value. -/
theorem lookup_dictSet_self {k : String} (v : Option String)
    (d : List (String × Option String)) (h : List.lookup k d = none) :
    List.lookup k (dictSet d k v) = some v := by
  unfold dictSet
  rw [if_neg (by rw [lookup_none_any_false d h]; simp)]
  exact lookup_append_self v d h

/-- The record-and-disconnect pass only writes dict keys from its list. -/
theorem recordAndDisconnect_lookup : ∀ (ns : List String) (w : GWorld)
    (d : List (String × Option String)) (k : String), (∀ m ∈ ns, m ≠ k) →
    List.lookup k (recordAndDisconnect w d ns).2 = List.lookup k d
  | [], _, _, _, _ => rfl
  | n :: ns, w, d, k, h => by
    simp only [recordAndDisconnect]
    rw [recordAndDisconnect_lookup ns _ _ k
      (fun m hm => h m (List.mem_cons_of_mem n hm))]
    exact lookup_dictSet_ne (Ne.symm (h n (List.mem_cons_self n ns))) _ d

/-- The recorded dict depends on the world only through findEntrance on
the processed names. -/
theorem recordAndDisconnect_dict_congr : ∀ (ns : List String) (w1 w2 : GWorld)
    (d : List (String × Option String)),
    (∀ m ∈ ns, findEntrance w1 m = findEntrance w2 m) →
    (recordAndDisconnect w1 d ns).2 = (recordAndDisconnect w2 d ns).2
  | [], _, _, _, _ => rfl
  | n :: ns, w1, w2, d, h => by
    simp only [recordAndDisconnect]
    rw [h n (List.mem_cons_self n ns)]
    exact recordAndDisconnect_dict_congr ns _ _ _ (fun m hm => by
      by_cases hmn : m = n
      · subst hmn
        rw [findEntrance_setConn_eq, findEntrance_setConn_eq,
          h m (List.mem_cons_of_mem m hm)]
      · rw [findEntrance_setConn_ne w1 hmn none, findEntrance_setConn_ne w2 hmn none]
        exact h m (List.mem_cons_of_mem n hm))

/-- Replaying the reconnect pass over the recorded dict restores the
world exactly, for distinct names and fresh dict keys. -/
theorem split_restore : ∀ (names : List String) (w : GWorld)
    (d : List (String × Option String)), names.Nodup →
    (∀ n ∈ names, List.lookup n d = none) →
    reconnectAll (recordAndDisconnect w d names).1 (recordAndDisconnect w d names).2 names = w
  | [], _, _, _, _ => rfl
  | n :: ns, w, d, hnd, hfresh => by
    have hn_ns : n ∉ ns := (List.nodup_cons.mp hnd).1
    have hns : ns.Nodup := (List.nodup_cons.mp hnd).2
    have hne : ∀ m ∈ ns, m ≠ n := fun m hm he => hn_ns (he ▸ hm)
    simp only [recordAndDisconnect, reconnectAll]
    have hdg : dictGet (recordAndDisconnect (setEntranceConn w n none)
        (dictSet d n ((findEntrance w n).bind (fun e => e.connected))) ns).2 n
        = (findEntrance w n).bind (fun e => e.connected) := by
      unfold dictGet
      rw [recordAndDisconnect_lookup ns _ _ n hne,
        lookup_dictSet_self _ d (hfresh n (List.mem_cons_self n ns))]
      rfl
    rw [hdg, recordAndDisconnect_fst ns _ _,
      disconnectWorld_setConn_comm ns w n none hn_ns]
    have hrestore : setEntranceConn (setEntranceConn (disconnectWorld w ns) n none) n
        ((findEntrance w n).bind (fun e => e.connected)) = disconnectWorld w ns := by
      have hfe := findEntrance_disconnectWorld ns w n hn_ns
      have h2 := setEntranceConn_restore (disconnectWorld w ns) n
      rw [hfe] at h2
      exact h2
    rw [hrestore]
    rw [recordAndDisconnect_dict_congr ns (setEntranceConn w n none) w
      (dictSet d n ((findEntrance w n).bind (fun e => e.connected)))
      (fun m hm => findEntrance_setConn_ne w (hne m hm) none)]
    rw [← recordAndDisconnect_fst ns w
      (dictSet d n ((findEntrance w n).bind (fun e => e.connected)))]
    exact split_restore ns w _ hns (fun m hm => by
      rw [lookup_dictSet_ne (hne m hm) _ d]
      exact hfresh m (List.mem_cons_of_mem n hm))

/-- C6: the classifier returns two disjoint, order-preserving collections
whose union is the input set, and afterwards every entrance of the input
is reconnected to exactly the region it was connected to before
classification began (for the distinct entrance names the caller always
supplies). -/
theorem C6_split_requirements (canReachBoth : String → Bool) (w : GWorld)
    (names : List String) :
    List.Disjoint (split_entrances_by_requirements canReachBoth w names).1.1
      (split_entrances_by_requirements canReachBoth w names).1.2 ∧
    List.Sublist (split_entrances_by_requirements canReachBoth w names).1.1 names ∧
    List.Sublist (split_entrances_by_requirements canReachBoth w names).1.2 names ∧
    List.Perm ((split_entrances_by_requirements canReachBoth w names).1.1
      ++ (split_entrances_by_requirements canReachBoth w names).1.2) names ∧
    (names.Nodup → (split_entrances_by_requirements canReachBoth w names).2 = w) := by
  have hcl := classifyNames_eq_filters canReachBoth names
  refine ⟨?_, ?_, ?_, ?_, ?_⟩
  · show List.Disjoint (classifyNames canReachBoth names).1 (classifyNames canReachBoth names).2
    rw [hcl]
    intro a ha1 ha2
    simp only [List.mem_filter] at ha1 ha2
    exact absurd ha1.2 (by rw [ha2.2]; decide)
  · show List.Sublist (classifyNames canReachBoth names).1 names
    rw [hcl]
    exact List.filter_sublist names
  · show List.Sublist (classifyNames canReachBoth names).2 names
    rw [hcl]
    exact List.filter_sublist names
  · show List.Perm ((classifyNames canReachBoth names).1
      ++ (classifyNames canReachBoth names).2) names
    rw [hcl]
    exact List.Perm.trans List.perm_append_comm (List.filter_append_perm canReachBoth names)
  · intro hnd
    show reconnectAll (recordAndDisconnect w [] names).1
      (recordAndDisconnect w [] names).2 names = w
    exact split_restore names w [] hnd (fun n _ => rfl)

/-- C6 witness: the classifier properties at a concrete world where
entrance a is restrictive and entrance b is soft. -/
theorem C6_witness :
    List.Disjoint (split_entrances_by_requirements c6oracle c6world c6names).1.1
      (split_entrances_by_requirements c6oracle c6world c6names).1.2 ∧
    List.Sublist (split_entrances_by_requirements c6oracle c6world c6names).1.1 c6names ∧
    List.Sublist (split_entrances_by_requirements c6oracle c6world c6names).1.2 c6names ∧
    List.Perm ((split_entrances_by_requirements c6oracle c6world c6names).1.1
      ++ (split_entrances_by_requirements c6oracle c6world c6names).1.2) c6names ∧
    (split_entrances_by_requirements c6oracle c6world c6names).2 = c6world :=
  ⟨(C6_split_requirements c6oracle c6world c6names).1,
   (C6_split_requirements c6oracle c6world c6names).2.1,
   (C6_split_requirements c6oracle c6world c6names).2.2.1,
   (C6_split_requirements c6oracle c6world c6names).2.2.2.1,
   (C6_split_requirements c6oracle c6world c6names).2.2.2.2 (by decide)⟩

/-- The tagging loop only ever raises the multi-entrance-region error of
its own world. -/
theorem taggingLoop_error_msg : ∀ (pool : List (String × String × Addresses)) (w : GWorld)
    (acc : List String) (s : GWorld × List String) (m : String),
    taggingLoop w pool acc = RunResult.error s m → m = multiEntranceRegionError w.id
  | [], _, _, _, _, h => RunResult.noConfusion h
  | (ename, ty, ad) :: rest, w, acc, s, m, h => by
    simp only [taggingLoop] at h
    split at h
    · exact RunResult.noConfusion h
    · split at h
      · exact RunResult.noConfusion h
      · split at h
        · exact RunResult.noConfusion h
        · injection h with h1 h2
          exact h2.symm
        · have hrec := taggingLoop_error_msg rest _ _ s m h
          exact hrec

/-- The restrictive placer only ever raises the retries-exhausted error
of the world id it was given. -/
theorem shuffle_entrances_restrictive_error_msg :
    ∀ (fuel attemptIdx : Nat) (ok : Conn → Bool)
      (shufE : Nat → List String → List String)
      (shufT : Nat → Nat → List Slot → List Slot) (wid : Nat)
      (entrances : List String) (conn : Conn) (pool : List Slot)
      (cp : Conn × List Slot) (m : String),
    shuffle_entrances_restrictive ok shufE shufT wid fuel
      attemptIdx entrances conn pool = RunResult.error cp m →
    m = retryExceededError wid := by
  intro fuel
  induction fuel with
  | zero =>
    intro attemptIdx ok shufE shufT wid entrances conn pool cp m h
    simp only [shuffle_entrances_restrictive] at h
    split at h
    · exact RunResult.noConfusion h
    · injection h with h1 h2
      exact h2.symm
  | succ n ih =>
    intro attemptIdx ok shufE shufT wid entrances conn pool cp m h
    simp only [shuffle_entrances_restrictive] at h
    split at h
    · exact RunResult.noConfusion h
    · exact RunResult.noConfusion h
    · exact ih _ ok shufE shufT wid _ _ _ cp m h

/-- The fast placer never raises an EntranceShuffleError. -/
theorem fastConnectLoop_no_error : ∀ (entrances : List String) (conn : Conn)
    (pool : List Slot) (cp : Conn × List Slot) (m : String),
    fastConnectLoop entrances conn pool ≠ RunResult.error cp m
  | [], _, _, _, _, h => RunResult.noConfusion h
  | e :: es, conn, pool, cp, m, h => by
    simp only [fastConnectLoop] at h
    split at h
    · exact RunResult.noConfusion h
    · exact RunResult.noConfusion h
    · exact fastConnectLoop_no_error es _ _ cp m h

/-- A world step raises only the multi-entrance-region or the
retries-exhausted error, both tagged with the id of the world it was
processing. -/
theorem worldStep_error_msg (canReachBoth : String → Bool) (ok : Conn → Bool)
    (shufE : Nat → List String → List String) (shufT : Nat → Nat → List Slot → List Slot)
    (shufFast : List Slot → List Slot) (pool : List (String × String × Addresses))
    (w : GWorld) (s : GWorld) (m : String)
    (h : worldStep canReachBoth ok shufE shufT shufFast pool w = RunResult.error s m) :
    m = multiEntranceRegionError w.id ∨ m = retryExceededError w.id := by
  simp only [worldStep] at h
  split at h
  · injection h with h1 h2
    next s1 m1 heq =>
      exact Or.inl (h2 ▸ taggingLoop_error_msg pool w [] s1 m1 heq)
  · exact RunResult.noConfusion h
  · split at h
    · exact RunResult.noConfusion h
    · split at h
      · injection h with h1 h2
        next cp m1 heq =>
          exact Or.inr (h2 ▸ shuffle_entrances_restrictive_error_msg 16 0 ok shufE shufT
            w.id _ _ _ cp m1 heq)
      · exact RunResult.noConfusion h
      · split at h
        · injection h with h1 h2
          next cp2 m1 heq =>
            exact absurd heq (fastConnectLoop_no_error _ _ _ cp2 m1)
        · exact RunResult.noConfusion h
        · exact RunResult.noConfusion h

/-- When the world loop raises, the raise comes from the step of some
world of the list and every world after that one is left untouched. -/
theorem poolLoop_error : ∀ (worlds : List GWorld) (step : Nat → GWorld → RunResult GWorld)
    (k : Nat) (ws : List GWorld) (m : String),
    poolLoop step k worlds = RunResult.error ws m →
    ∃ i wi s, worlds.get? i = some wi ∧ step (k + i) wi = RunResult.error s m ∧
      ws.drop (i + 1) = worlds.drop (i + 1)
  | [], _, _, _, _, h => RunResult.noConfusion h
  | w :: rest, step, k, ws, m, h => by
    simp only [poolLoop] at h
    cases hstep : step k w with
    | error s m1 =>
      rw [hstep] at h
      injection h with h1 h2
      refine ⟨0, w, s, rfl, ?_, ?_⟩
      · rw [Nat.add_zero, hstep, h2]
      · rw [← h1]
        exact rfl
    | crash s =>
      rw [hstep] at h
      exact RunResult.noConfusion h
    | ok s =>
      rw [hstep] at h
      cases hrec : poolLoop step (k + 1) rest with
      | ok r =>
        rw [hrec] at h
        exact RunResult.noConfusion h
      | crash r =>
        rw [hrec] at h
        exact RunResult.noConfusion h
      | error r m2 =>
        rw [hrec] at h
        injection h with h1 h2
        obtain ⟨i, wi, s2, hg, hs, hd⟩ := poolLoop_error rest step (k + 1) r m2 hrec
        refine ⟨i + 1, wi, s2, hg, ?_, ?_⟩
        · rw [show k + (i + 1) = k + 1 + i by omega, hs, h2]
        · rw [← h1]
          show r.drop (i + 1) = rest.drop (i + 1)
          exact hd

/-- C3 counterexample: on a two-world input whose second world carries a
pre-tagged target region, shuffle_entrance_pool does raise the
unsupported-multi-entrance-region error naming world 1, but at that
moment world 0 (another world) has already been mutated: its pool
entrance is shuffled and its state differs from the input. -/
theorem C3_counterexample :
    c3run.errMsg = some (multiEntranceRegionError 1) ∧
    c3run.st.head? ≠ some c3w0 ∧
    (c3run.st.head?.map (fun w => entranceShuffledFlag w "A -> B"))
      = some (some true) := by
  decide

/-- C3 amended: whenever shuffle_entrance_pool raises, the raise happened
while processing some world of the list (the error names that world by
id, as the multi-entrance-region or the retries-exhausted error), and
every world after that one in processing order is left unmutated; worlds
before it have already been shuffled and may be mutated. -/
theorem C3_error_leaves_later_worlds (canReachBothW : Nat → String → Bool)
    (okW : Nat → Conn → Bool) (shufEW : Nat → Nat → List String → List String)
    (shufTW : Nat → Nat → Nat → List Slot → List Slot)
    (shufFastW : Nat → List Slot → List Slot)
    (pool : List (String × String × Addresses)) (worlds ws : List GWorld) (m : String)
    (h : shuffle_entrance_pool canReachBothW okW shufEW shufTW shufFastW pool worlds
      = RunResult.error ws m) :
    ∃ i wi, worlds.get? i = some wi ∧
      (m = multiEntranceRegionError wi.id ∨ m = retryExceededError wi.id) ∧
      ws.drop (i + 1) = worlds.drop (i + 1) := by
  obtain ⟨i, wi, s, hg, hs, hd⟩ := poolLoop_error worlds _ 0 ws m h
  exact ⟨i, wi, hg,
    worldStep_error_msg (canReachBothW i) (okW i) (shufEW i) (shufTW i) (shufFastW i)
      pool wi s m (by rw [show i = 0 + i by omega]; exact hs), hd⟩

/-- C3 amended witness: the decomposition applied to the concrete
pre-tagged-region run. -/
theorem C3_amended_witness :
    ∃ i wi, [c3w0, c3w1].get? i = some wi ∧
      (multiEntranceRegionError 1 = multiEntranceRegionError wi.id ∨
        multiEntranceRegionError 1 = retryExceededError wi.id) ∧
      c3run.st.drop (i + 1) = [c3w0, c3w1].drop (i + 1) :=
  C3_error_leaves_later_worlds (fun _ _ => true) (fun _ _ => true) (fun _ _ l => l)
    (fun _ _ _ l => l) (fun _ l => l) c3pool [c3w0, c3w1] c3run.st
    (multiEntranceRegionError 1) (by decide)

/-- C4 counterexample: with worlds [open forest, closed forest], the
closed-forest world 1 still has its forest-dungeon entrance shuffled by
the full orchestrator run — the entry was not removed from the pool used
to shuffle that world, because the filter reads only worlds[0]. -/
theorem C4_counterexample :
    c4w1.open_forest = false ∧
    c4run.1.isOk = true ∧
    ((c4run.1.st.get? 1).map
      (fun w => entranceShuffledFlag w "Outside Deku Tree -> Deku Tree Lobby"))
      = some (some true) := by
  decide

/-- C4 amended: the closed-forest filter is decided once, from the
openForest setting of worlds[0]: when that setting is false the forest
entry is absent from the single pool handed to every world, and when it
is true the entry is present for every world. -/
theorem C4_pool_follows_world0 (w0 : GWorld) :
    (w0.open_forest = false →
      "Outside Deku Tree -> Deku Tree Lobby"
        ∉ (dungeonPoolSelection w0).map (fun e => e.1)) ∧
    (w0.open_forest = true →
      "Outside Deku Tree -> Deku Tree Lobby"
        ∈ (dungeonPoolSelection w0).map (fun e => e.1)) := by
  constructor
  · intro h
    unfold dungeonPoolSelection
    rw [h]
    decide
  · intro h
    unfold dungeonPoolSelection
    rw [h]
    decide

/-- C4 amended witness: both settings evaluated on sample worlds. -/
theorem C4_amended_witness :
    "Outside Deku Tree -> Deku Tree Lobby"
      ∉ (dungeonPoolSelection sampleClosedWorld).map (fun e => e.1) ∧
    "Outside Deku Tree -> Deku Tree Lobby"
      ∈ (dungeonPoolSelection sampleOpenWorld).map (fun e => e.1) :=
  ⟨(C4_pool_follows_world0 sampleClosedWorld).1 rfl,
   (C4_pool_follows_world0 sampleOpenWorld).2 rfl⟩

/-- The verification phase raises only the unbeatable or the ALR error. -/
theorem verifyPhase_msgs (checkBeatableOnly : Bool)
    (allLocations alreadyUnreachable : List String) (canReach : String → Bool)
    (beatable : Bool) (m : String)
    (h : verifyPhase checkBeatableOnly allLocations alreadyUnreachable canReach beatable
      = some m) :
    m = unbeatableError ∨ m = alrError := by
  simp only [verifyPhase] at h
  repeat' split at h
  all_goals
    first
      | exact Option.noConfusion h
      | exact Or.inl (Option.some.inj h).symm
      | exact Or.inr (Option.some.inj h).symm

/-- C7: after the pools are shuffled and the exploration states rebuilt,
the verification raises the unbeatable error whenever the joint game is
not beatable (taking precedence over everything else); otherwise, if
check_beatable_only is not set and some location outside the
baseline-unreachable set is no longer reachable, it raises the
ALR-violation error; otherwise it returns successfully. -/
theorem C7_verification_order (checkBeatableOnly : Bool)
    (allLocations alreadyUnreachable : List String)
    (canReach : String → Bool) (beatable : Bool) :
    (beatable = false →
      verifyPhase checkBeatableOnly allLocations alreadyUnreachable canReach beatable
        = some unbeatableError) ∧
    (beatable = true → checkBeatableOnly = false →
      (∃ l ∈ allLocations, l ∉ alreadyUnreachable ∧ canReach l = false) →
      verifyPhase checkBeatableOnly allLocations alreadyUnreachable canReach beatable
        = some alrError) ∧
    (beatable = true →
      (checkBeatableOnly = true ∨
        ∀ l ∈ allLocations, l ∉ alreadyUnreachable → canReach l = true) →
      verifyPhase checkBeatableOnly allLocations alreadyUnreachable canReach beatable
        = none) := by
  refine ⟨?_, ?_, ?_⟩
  · intro hb
    subst hb
    simp [verifyPhase]
  · intro hb hc hex
    obtain ⟨l, hl, hnu, hnr⟩ := hex
    subst hb
    subst hc
    have hall : allLocations.all
        (fun l => decide (l ∈ alreadyUnreachable) || canReach l) = false := by
      have hne : ¬ allLocations.all
          (fun l => decide (l ∈ alreadyUnreachable) || canReach l) = true := by
        rw [List.all_eq_true]
        intro hc2
        have := hc2 l hl
        rw [hnr] at this
        simp [hnu] at this
      exact Bool.eq_false_iff.mpr hne
    simp [verifyPhase, hall]
  · intro hb hor
    subst hb
    cases hor with
    | inl hc =>
      subst hc
      simp [verifyPhase]
    | inr hall =>
      have h2 : allLocations.all
          (fun l => decide (l ∈ alreadyUnreachable) || canReach l) = true := by
        rw [List.all_eq_true]
        intro l hl
        by_cases hm : l ∈ alreadyUnreachable
        · simp [hm]
        · simp [hm, hall l hl hm]
      cases checkBeatableOnly <;> simp [verifyPhase, h2]

/-- C7 witness: the three verification outcomes at concrete inputs. -/
theorem C7_witness :
    verifyPhase false ["L"] [] (fun _ => false) true = some alrError ∧
    verifyPhase false [] [] (fun _ => true) false = some unbeatableError ∧
    verifyPhase true [] [] (fun _ => true) true = none :=
  ⟨(C7_verification_order false ["L"] [] (fun _ => false) true).2.1 rfl rfl
      ⟨"L", by simp, by simp, rfl⟩,
   (C7_verification_order false [] [] (fun _ => true) false).1 rfl,
   (C7_verification_order true [] [] (fun _ => true) true).2.2 rfl (Or.inl rfl)⟩

/-- C9: the region-target consistency check is non-fatal. Whenever it
completes on the shuffled worlds, control proceeds to the subsequent
verification steps and the outcome of the phase is exactly the
verification outcome, with the diagnostics carried separately; any raise
of the phase is the unbeatable or the ALR error, never one caused by the
check; and on a concrete world where the check reports violations, the
phase still returns successfully with the violations recorded only as
diagnostics. -/
theorem C9_region_check_nonfatal :
    (∀ (allLocations alreadyUnreachable : List String) (canReach : String → Bool)
        (beatable : Bool) (w0 : GWorld) (rest : List GWorld)
        (diags : List (Option String × Nat × Nat)),
      regionChecksAll (w0 :: rest) = some diags →
      postShufflePhase allLocations alreadyUnreachable canReach beatable (w0 :: rest)
        = (match verifyPhase w0.check_beatable_only allLocations alreadyUnreachable
              canReach beatable with
           | some m => (RunResult.error (w0 :: rest) m, diags)
           | none => (RunResult.ok (w0 :: rest), diags)) ∧
      (∀ (s : List GWorld) (m : String),
        (postShufflePhase allLocations alreadyUnreachable canReach beatable
            (w0 :: rest)).1 = RunResult.error s m →
        m = unbeatableError ∨ m = alrError)) ∧
    regionTargetCheck c9world = some [(some "R", 2, 0), (some "R", 2, 0)] ∧
    (postShufflePhase [] [] (fun _ => true) true [c9world]).1 = RunResult.ok [c9world] ∧
    (postShufflePhase [] [] (fun _ => true) true [c9world]).2
      = [(some "R", 2, 0), (some "R", 2, 0)] := by
  refine ⟨?_, by decide, by decide, by decide⟩
  intro allLocations alreadyUnreachable canReach beatable w0 rest diags h
  constructor
  · simp only [postShufflePhase, h]
  · intro s m hp
    simp only [postShufflePhase, h] at hp
    cases hv : verifyPhase w0.check_beatable_only allLocations alreadyUnreachable
        canReach beatable with
    | some m1 =>
      rw [hv] at hp
      have hm : m1 = m := by injection hp with h1 h2
      exact hm ▸ verifyPhase_msgs w0.check_beatable_only allLocations alreadyUnreachable
        canReach beatable m1 hv
    | none =>
      rw [hv] at hp
      exact RunResult.noConfusion hp

/-- C9 witness: the non-fatal check on the concrete violating world. -/
theorem C9_witness :
    postShufflePhase [] [] (fun _ => true) true [c9world]
      = (match verifyPhase c9world.check_beatable_only [] [] (fun _ => true) true with
         | some m => (RunResult.error [c9world] m, [(some "R", 2, 0), (some "R", 2, 0)])
         | none => (RunResult.ok [c9world], [(some "R", 2, 0), (some "R", 2, 0)])) :=
  (C9_region_check_nonfatal.1 [] [] (fun _ => true) true c9world []
    [(some "R", 2, 0), (some "R", 2, 0)] (by decide)).1
